import Mathlib

/-
Verification of the booking service (FastAPI + psycopg2) core logic.

The embedding follows the source files:
  * main.py   — CreateBooking validation, create_booking transaction
  * user.py   — create_user upsert, create_access_token, verify_user
  * db.py     — DatabaseConnection context manager over the pool

The relational schema (app.events with CHECK (available_tickets >= 0),
app.users with the unique_email constraint, app.bookings with a foreign
key on event_id) is not part of the Python sources; those store-enforced
constraints are modelled from the spec (sections 3 and 6).
-/

namespace BookingApp

/-- A row of app.events. Descriptive columns (name, start, location) are
omitted: no claim touches them. -/
structure EventRow where
  event_id : Int
  total_tickets : Int
  available_tickets : Int
deriving DecidableEq

/-- A row of app.users. Modelled from the spec: password hash is absent when
the user is auto-created via booking; `active` defaults to true. -/
structure UserRow where
  user_id : Nat
  email : String
  first_name : String
  last_name : String
  password : Option String
  active : Bool
deriving DecidableEq

/-- A row of app.bookings. -/
structure BookingRow where
  booking_id : Nat
  event_id : Int
  user_id : Nat
  number_of_tickets : Int
deriving DecidableEq

/-- The store state: the three relations plus the serial generators that
assign fresh user and booking identifiers. -/
structure DBState where
  events : List EventRow
  users : List UserRow
  bookings : List BookingRow
  nextUserId : Nat
  nextBookingId : Nat
deriving DecidableEq

/-- The CreateBooking pydantic model of main.py (field declaration order:
event_id, first_name, last_name, email, number_of_tickets). -/
structure CreateBooking where
  event_id : Int
  first_name : String
  last_name : String
  email : String
  number_of_tickets : Int
deriving DecidableEq

/- Character classes of the email regex in CreateBooking.is_email:
r'\b[A-Za-z0-9._%+-]+@[A-Za-z0-9.-]+\.[A-Z|a-z]\x7b2,7\x7d\b' with fullmatch. -/

def localChar (c : Char) : Bool :=
  c.isAlpha || c.isDigit || c = '.' || c = '_' || c = '%' || c = '+' || c = '-'

def domainChar (c : Char) : Bool :=
  c.isAlpha || c.isDigit || c = '.' || c = '-'

/- The character class [A-Z|a-z] of the regex contains the literal bar. -/
def tldChar (c : Char) : Bool :=
  c.isAlpha || c = '|'

def wordChar (c : Char) : Bool :=
  c.isAlpha || c.isDigit || c = '_'

/-- Structural embedding of the fullmatch of the email regex: exactly one
at-sign; a nonempty local part of local characters opening on a word
character (the leading word boundary); a domain that ends in a dot followed
by a 2-7 character top-level domain closing on a word character (the
trailing word boundary). The top-level part is delimited by the last dot,
which matches the greedy [A-Za-z0-9.-]+ since the final class admits no
dot. -/
def is_email (s : String) : Bool :=
  match s.toList.splitOn '@' with
  | [loc, dom] =>
    let rd := dom.reverse
    let tld := rd.takeWhile (fun c => c ≠ '.')
    let rest := rd.dropWhile (fun c => c ≠ '.')
    (match loc with | c :: _ => wordChar c | [] => false) &&
    loc.all localChar &&
    (match rd with | c :: _ => wordChar c | [] => false) &&
    decide (2 ≤ tld.length) && decide (tld.length ≤ 7) && tld.all tldChar &&
    (match rest with
     | '.' :: drest => decide (drest ≠ []) && drest.all domainChar
     | _ => false)
  | _ => false

/-- SELECT * FROM app.events WHERE event_id = .. with fetchone. -/
def findEvent (events : List EventRow) (eid : Int) : Option EventRow :=
  events.find? (fun e => e.event_id == eid)

/-- SELECT user_id FROM app.users WHERE email = .. (unique_email makes the
first match the only match). -/
def findUserByEmail (users : List UserRow) (email : String) : Option UserRow :=
  users.find? (fun u => u.email == email)

/-- Outcome of instantiating the CreateBooking model. -/
inductive ValidationOutcome
  | ok
  | validationError
  | eventNotFound
deriving DecidableEq

/-- Pydantic validation of a CreateBooking request. Field validators run in
field declaration order, so is_event_id runs first: a non-positive
event_id raises a ValueError (collected into the final ValidationError)
before any store access; otherwise the validator calls get_event_by_id,
which reads the store, and an EventNotFoundError propagates immediately.
The email and number_of_tickets validators touch no store. The second
component counts store reads performed during validation. -/
def validateCreateBooking (db : DBState) (r : CreateBooking) :
    ValidationOutcome × Nat :=
  if r.event_id ≤ 0 then
    (.validationError, 0)
  else
    match findEvent db.events r.event_id with
    | none => (.eventNotFound, 1)
    | some _ =>
      if is_email r.email = false then (.validationError, 1)
      else if r.number_of_tickets ≤ 0 then (.validationError, 1)
      else (.ok, 1)

/-- Outcome of the create_booking transaction of main.py. -/
inductive BookingOutcome
  | success (booking_id : Nat)
  | insufficientInventory
  | infrastructureError
deriving DecidableEq

/-- UPDATE app.events SET available_tickets = available_tickets - n
WHERE event_id = eid — every matching row is decremented (the primary key
makes it at most one). -/
def updateEvents (events : List EventRow) (eid n : Int) : List EventRow :=
  events.map (fun e =>
    if e.event_id == eid
    then { e with available_tickets := e.available_tickets - n }
    else e)

/-- The store-enforced CHECK (available_tickets >= 0): true when some row
violates it, in which case the statement raises CheckViolation. -/
def checkViolated (events : List EventRow) : Bool :=
  events.any (fun e => e.available_tickets < 0)

/-- The create_booking transaction of main.py, three statements in one
transaction:
1. the conditional decrement of available_tickets (CheckViolation is
   caught and reported as the insufficient-inventory BookingError, the
   transaction rolls back);
2. INSERT INTO app.users ON CONFLICT ON CONSTRAINT unique_email
   DO NOTHING — no password column is supplied;
3. INSERT INTO app.bookings with the user_id resolved by the email
   subselect, RETURNING booking_id. The foreign key on event_id (modelled
   from the spec) makes this raise when the event is absent; that
   exception is not caught, and the transaction rolls back.
Commit happens only after all three statements succeed, so the returned
state changes only on success. -/
def create_booking (db : DBState) (r : CreateBooking) :
    BookingOutcome × DBState :=
  let events' := updateEvents db.events r.event_id r.number_of_tickets
  if checkViolated events' then
    (.insufficientInventory, db)
  else
    let userExists := (findUserByEmail db.users r.email).isSome
    let users' :=
      if userExists then db.users
      else db.users ++
        [⟨db.nextUserId, r.email, r.first_name, r.last_name, none, true⟩]
    if (findEvent db.events r.event_id).isNone then
      (.infrastructureError, db)
    else
      match findUserByEmail users' r.email with
      | none => (.infrastructureError, db)
      | some u =>
        (.success db.nextBookingId,
          ⟨events', users',
           db.bookings ++
             [⟨db.nextBookingId, r.event_id, u.user_id, r.number_of_tickets⟩],
           if userExists then db.nextUserId else db.nextUserId + 1,
           db.nextBookingId + 1⟩)

/-- Outcome of the whole POST /booking flow. -/
inductive Outcome
  | success (booking_id : Nat)
  | invalidRequest
  | eventNotFound
  | insufficientInventory
  | infrastructureError
deriving DecidableEq

/-- The POST /booking flow: pydantic validation of the request body, then
create_booking. Returns the outcome, the resulting store state and the
number of store reads performed during validation. -/
def post_booking (db : DBState) (r : CreateBooking) :
    Outcome × DBState × Nat :=
  match validateCreateBooking db r with
  | (.validationError, reads) => (.invalidRequest, db, reads)
  | (.eventNotFound, reads) => (.eventNotFound, db, reads)
  | (.ok, reads) =>
    match create_booking db r with
    | (.success bid, db') => (.success bid, db', reads)
    | (.insufficientInventory, db') => (.insufficientInventory, db', reads)
    | (.infrastructureError, db') => (.infrastructureError, db', reads)

/-- A sequence of POST /booking requests applied in order. -/
def applyBookings (db : DBState) (rs : List CreateBooking) : DBState :=
  rs.foldl (fun s r => (post_booking s r).2.1) db

/-- Total tickets held by bookings of one event. -/
def sumTicketsFor (bookings : List BookingRow) (eid : Int) : Int :=
  ((bookings.filter (fun b => b.event_id == eid)).map
    (fun b => b.number_of_tickets)).sum

/-- The conservation invariant of spec section 3: for every events row, the
tickets booked for it plus its available_tickets equal its total_tickets,
and available_tickets is never negative. -/
def Inv (db : DBState) : Prop :=
  ∀ e ∈ db.events,
    sumTicketsFor db.bookings e.event_id + e.available_tickets =
      e.total_tickets ∧ 0 ≤ e.available_tickets

instance (db : DBState) : Decidable (Inv db) := by
  unfold Inv; infer_instance

/-- The CreateUser pydantic model of user.py. -/
structure CreateUser where
  email : String
  password : String
  first_name : String
  last_name : String
deriving DecidableEq

/-- The create_user function of user.py: hash the password, then INSERT INTO
app.users ON CONFLICT ON CONSTRAINT unique_email DO UPDATE SET email,
first_name, last_name, password = excluded.., RETURNING user_id. On
conflict the existing row keeps its user_id (and its active flag) while
every supplied column is overwritten. pwd_context.hash draws a fresh salt,
so the hash it returns is passed in as the function hashFn. -/
def create_user (hashFn : String → String) (db : DBState) (nu : CreateUser) :
    Nat × DBState :=
  let hashed := hashFn nu.password
  match findUserByEmail db.users nu.email with
  | some u =>
    (u.user_id,
     { db with users := db.users.map (fun x =>
         if x.email == nu.email
         then ⟨x.user_id, nu.email, nu.first_name, nu.last_name,
               some hashed, x.active⟩
         else x) })
  | none =>
    (db.nextUserId,
     { db with
         users := db.users ++
           [⟨db.nextUserId, nu.email, nu.first_name, nu.last_name,
             some hashed, true⟩],
         nextUserId := db.nextUserId + 1 })

/- ===== JWT model (user.py: create_access_token, verify_user) ===== -/

/-- The payload of a token: the user_id claim written by login, the custom
expire claim written by create_access_token, and the registered exp claim
that jose validates — which this code base never writes. -/
structure JWTPayload where
  user_id : Option Int
  expire : Option String
  exp : Option Int
deriving DecidableEq

/-- jwt.encode signs the payload with a key and an algorithm. -/
structure JWTToken where
  payload : JWTPayload
  key : String
  alg : String
deriving DecidableEq

def jwt_encode (p : JWTPayload) (key alg : String) : JWTToken :=
  ⟨p, key, alg⟩

inductive JWTResult
  | ok (p : JWTPayload)
  | expired
  | invalid
deriving DecidableEq

/-- The jose jwt.decode: verifies the signature, and validates the registered
exp claim against the current time when — and only when — it is present in
the payload. -/
def jwt_decode (t : JWTToken) (key alg : String) (now : Int) : JWTResult :=
  if t.key == key && t.alg == alg then
    match t.payload.exp with
    | some e => if e ≤ now then .expired else .ok t.payload
    | none => .ok t.payload
  else .invalid

/-- create_access_token of user.py: computes
expire = utcnow + JWT_TOKEN_EXPIRY_MINUTES and stores
expire.strftime("..") under the custom key expire — not under the
registered key exp, and as a formatted string, not a timestamp. strftime
is passed in as an argument; its output never matters downstream. -/
def create_access_token (strftime : Int → String) (expiryMinutes : Int)
    (key alg : String) (user_id : Int) (now : Int) : JWTToken :=
  let expire := now + expiryMinutes * 60
  jwt_encode ⟨some user_id, some (strftime expire), none⟩ key alg

inductive VerifyResult
  | ok (user_id : Int)
  | credentialsError
  | jwtError
deriving DecidableEq

/-- verify_user of user.py: decode (signature check plus the jose exp
validation) and extract the user_id claim. -/
def verify_user (t : JWTToken) (key alg : String) (now : Int) : VerifyResult :=
  match jwt_decode t key alg now with
  | .ok p =>
    match p.user_id with
    | some uid => .ok uid
    | none => .credentialsError
  | _ => .jwtError

/- ===== Connection pool model (db.py: DatabaseConnection) ===== -/

/-- The SimpleConnectionPool: connections sitting in the pool and
connections currently borrowed. -/
structure PoolState where
  available : Nat
  inUse : Nat
deriving DecidableEq

/-- What the body of the with-block does. -/
inductive BodyOutcome
  | ok
  | raises
deriving DecidableEq

/-- Result of running a with DatabaseConnection() block: the pool
afterwards, how many times putconn ran, and whether an exception escaped. -/
structure WithResult where
  pool : PoolState
  putconnCalls : Nat
  raised : Bool
deriving DecidableEq

/-- The DatabaseConnection context manager of db.py around a body.
enter borrows a connection with POOL.getconn (which raises when the
pool is exhausted, in which case the body and exit never run and nothing
was borrowed); exit runs on the normal path and on the exception path
alike, closes the cursor (rolling back any open transaction) and returns
the connection with POOL.putconn; an exception from the body is then
re-raised. -/
def withDatabaseConnection (p : PoolState) (body : BodyOutcome) : WithResult :=
  match p.available with
  | 0 => ⟨p, 0, true⟩
  | Nat.succ a =>
    let afterEnter : PoolState := ⟨a, p.inUse + 1⟩
    let afterExit : PoolState := ⟨afterEnter.available + 1, afterEnter.inUse - 1⟩
    ⟨afterExit, 1, body == .raises⟩

/- ===== Concurrency model (two create_booking transactions racing) ===== -/

/-- Progress of one create_booking transaction against the shared events
row, at the resolution at which PostgreSQL serializes them: start (about
to run the UPDATE), holding (UPDATE done: the row lock is held and the
decremented value is uncommitted), committed (user and booking inserts
done and COMMIT issued), aborted (the CHECK constraint failed, the
transaction rolled back: the insufficient-inventory outcome). -/
inductive TxnPc
  | start
  | holding (pending : Int)
  | committed
  | aborted
deriving DecidableEq

/-- Shared state of two racing transactions A and B: the committed
available_tickets of the contested events row, the row lock (some true
when A holds it, some false when B does), and the progress of each
progress. -/
structure ConcState where
  avail : Int
  lock : Option Bool
  pcA : TxnPc
  pcB : TxnPc
deriving DecidableEq

/-- One scheduler step, running transaction A when who is true and B
otherwise. The UPDATE takes the row lock — blocking while the other
transaction holds it — and under READ COMMITTED sees the latest committed
value once the lock is granted; a CHECK violation aborts and rolls back at
once, releasing the lock; COMMIT publishes the decremented value and
releases the lock. The user and booking inserts touch no shared row and
are folded into the commit step. -/
def step (nA nB : Int) (s : ConcState) (who : Bool) : ConcState :=
  if who then
    match s.pcA with
    | .start =>
      match s.lock with
      | some _ => s
      | none =>
        if s.avail - nA < 0 then { s with pcA := .aborted }
        else { s with pcA := .holding (s.avail - nA), lock := some true }
    | .holding p => { s with pcA := .committed, avail := p, lock := none }
    | _ => s
  else
    match s.pcB with
    | .start =>
      match s.lock with
      | some _ => s
      | none =>
        if s.avail - nB < 0 then { s with pcB := .aborted }
        else { s with pcB := .holding (s.avail - nB), lock := some false }
    | .holding p => { s with pcB := .committed, avail := p, lock := none }
    | _ => s

/-- Run a whole interleaving: the schedule lists which transaction moves at
each step (a blocked or finished transaction simply does not advance). -/
def run (nA nB : Int) (s : ConcState) : List Bool → ConcState
  | [] => s
  | w :: ws => run nA nB (step nA nB s w) ws

/-- Both transactions start before the UPDATE against a committed value. -/
def init (a : Int) : ConcState :=
  ⟨a, none, .start, .start⟩

def finished : TxnPc → Bool
  | .committed => true
  | .aborted => true
  | _ => false

/-- The per-transaction part of the concurrency invariant: while a
transaction holds the lock, the pending value is exactly the committed
value minus its decrement — the committed value cannot move under the
lock — and the CHECK guarantees it is non-negative. -/
def holdingOK (n avail : Int) (mine : Bool) (lock : Option Bool) :
    TxnPc → Bool
  | .holding p =>
    decide (p = avail - n) && decide (0 ≤ p) && decide (lock = some mine)
  | _ => true

/-- Inductive invariant of the two-transaction system: available_tickets
is never negative, and a transaction about to commit holds the lock on a
pending value that is the current committed value minus its own request —
so a booking of n tickets only ever commits when n is at most the
available_tickets observed at commit time. -/
def ginv (nA nB : Int) (s : ConcState) : Bool :=
  decide (0 ≤ s.avail) &&
  holdingOK nA s.avail true s.lock s.pcA &&
  holdingOK nB s.avail false s.lock s.pcB

/-- The states reachable by two transactions each booking 5 of 5 available
tickets. -/
def reachable55 : List ConcState :=
  [⟨5, none, .start, .start⟩,
   ⟨5, some true, .holding 0, .start⟩,
   ⟨0, none, .committed, .start⟩,
   ⟨0, none, .committed, .aborted⟩,
   ⟨5, some false, .start, .holding 0⟩,
   ⟨0, none, .start, .committed⟩,
   ⟨0, none, .aborted, .committed⟩]

/- ===== Sample states and requests used to instantiate the theorems ===== -/

def sampleEvent : EventRow := ⟨1, 10, 10⟩

def sampleUser : UserRow := ⟨7, "ann@lee.com", "Old", "Name", some "oldhash", true⟩

/-- One event with 10 of 10 tickets available, no users, no bookings. -/
def sampleDB : DBState := ⟨[sampleEvent], [], [], 1, 1⟩

/-- The same event, with one registered user. -/
def sampleDBUser : DBState := ⟨[sampleEvent], [sampleUser], [], 8, 1⟩

def reqOk : CreateBooking := ⟨1, "Ann", "Lee", "ann@lee.com", 3⟩

def reqZero : CreateBooking := ⟨1, "Ann", "Lee", "ann@lee.com", 0⟩

def reqTooMany : CreateBooking := ⟨1, "Ann", "Lee", "ann@lee.com", 11⟩

def reqNoEvent : CreateBooking := ⟨99, "Ann", "Lee", "ann@lee.com", 3⟩

/-- A registration request for the email of sampleUser. -/
def sampleCreateUser : CreateUser := ⟨"ann@lee.com", "newpass1", "New", "Person"⟩

/- ===================== Helper lemmas ===================== -/

theorem sumTicketsFor_append (bs : List BookingRow) (b : BookingRow) (eid : Int) :
    sumTicketsFor (bs ++ [b]) eid =
      sumTicketsFor bs eid +
        (if b.event_id == eid then b.number_of_tickets else 0) := by
  by_cases hb : b.event_id == eid <;>
    simp [sumTicketsFor, List.filter_append, hb]

theorem checkViolated_eq_false {evs : List EventRow}
    (h : checkViolated evs = false) : ∀ e ∈ evs, 0 ≤ e.available_tickets := by
  intro e he
  have h2 := List.any_eq_false.mp h e he
  simp at h2
  omega

theorem inv_update_append (db : DBState) (eid n : Int) (bid uid : Nat)
    (h : Inv db)
    (hc : checkViolated (updateEvents db.events eid n) = false) :
    ∀ e' ∈ updateEvents db.events eid n,
      sumTicketsFor (db.bookings ++ [⟨bid, eid, uid, n⟩]) e'.event_id +
        e'.available_tickets = e'.total_tickets ∧ 0 ≤ e'.available_tickets := by
  intro e' he'
  refine ⟨?_, checkViolated_eq_false hc e' he'⟩
  rw [sumTicketsFor_append]
  obtain ⟨e, hmem, rfl⟩ := List.mem_map.mp he'
  have hsum := (h e hmem).1
  by_cases hb : e.event_id == eid
  · have heq : e.event_id = eid := by simpa using hb
    rw [heq] at hsum
    simp [hb, heq]
    omega
  · have hbe : ¬ e.event_id = eid := by simpa using hb
    have hne : (eid == e.event_id) = false := by
      simp
      exact fun hx => hbe hx.symm
    simp [hb, hne]
    omega

theorem inv_create_booking (db : DBState) (r : CreateBooking) (h : Inv db) :
    Inv (create_booking db r).2 := by
  simp only [create_booking]
  split
  · exact h
  next hc =>
    split
    · exact h
    next hev =>
      split
      · exact h
      next u hu =>
        exact fun e' he' =>
          inv_update_append db r.event_id r.number_of_tickets
            db.nextBookingId u.user_id h (by simpa using hc) e' he'

theorem inv_post_booking (db : DBState) (r : CreateBooking) (h : Inv db) :
    Inv (post_booking db r).2.1 := by
  simp only [post_booking]
  split
  · exact h
  · exact h
  · split <;> rename_i heq <;>
      simpa [heq] using inv_create_booking db r h

theorem findEvent_updateEvents (evs : List EventRow) (eid n : Int) :
    findEvent (updateEvents evs eid n) eid =
      (findEvent evs eid).map
        (fun e => { e with available_tickets := e.available_tickets - n }) := by
  induction evs with
  | nil => rfl
  | cons e t ih =>
    cases hb : (e.event_id == eid) with
    | true =>
      simp only [updateEvents, List.map_cons, findEvent, List.find?_cons]
      rw [hb]
      simp only [if_true]
      have hp : (({ e with available_tickets := e.available_tickets - n } :
          EventRow).event_id == eid) = true := hb
      rw [hp]
      rfl
    | false =>
      simp only [updateEvents, List.map_cons, findEvent, List.find?_cons]
      rw [hb]
      simp only [Bool.false_eq_true, if_false]
      rw [hb]
      exact ih

theorem validate_ok (db : DBState) (r : CreateBooking) (e : EventRow)
    (hid : 0 < r.event_id)
    (hfind : findEvent db.events r.event_id = some e)
    (hmail : is_email r.email = true)
    (hn : 0 < r.number_of_tickets) :
    validateCreateBooking db r = (.ok, 1) := by
  simp only [validateCreateBooking]
  rw [if_neg (by omega), hfind]
  simp only [hmail]
  rw [if_neg (by simp), if_neg (by omega)]

theorem findUserByEmail_resolve (users : List UserRow) (em : String)
    (uid : Nat) (fn ln : String) :
    ∃ u : UserRow,
      findUserByEmail
        (if (findUserByEmail users em).isSome then users
         else users ++ [⟨uid, em, fn, ln, none, true⟩]) em = some u := by
  cases hf : findUserByEmail users em with
  | some u => exact ⟨u, by simp [hf]⟩
  | none =>
    refine ⟨⟨uid, em, fn, ln, none, true⟩, ?_⟩
    simp only [hf, Option.isSome_none, Bool.false_eq_true, if_false,
      findUserByEmail, List.find?_append]
    rw [show List.find? (fun u => u.email == em) users = none from hf]
    simp [List.find?]

theorem checkViolated_of_bounds (db : DBState) (r : CreateBooking)
    (e : EventRow)
    (hen : r.number_of_tickets ≤ e.available_tickets)
    (huniq : ∀ x ∈ db.events, x.event_id = r.event_id → x = e)
    (hnn : ∀ x ∈ db.events, 0 ≤ x.available_tickets) :
    checkViolated (updateEvents db.events r.event_id r.number_of_tickets)
      = false := by
  simp only [checkViolated, List.any_eq_false]
  intro x' hx'
  obtain ⟨x, hx, rfl⟩ := List.mem_map.mp hx'
  by_cases hb : x.event_id == r.event_id
  · have hxe : x = e := huniq x hx (by simpa using hb)
    subst hxe
    simp [hb]
    omega
  · simp [hb]
    have := hnn x hx
    omega

theorem create_booking_success (db : DBState) (r : CreateBooking) (e : EventRow)
    (hfind : findEvent db.events r.event_id = some e)
    (hcv : checkViolated (updateEvents db.events r.event_id r.number_of_tickets)
      = false) :
    ∃ u : UserRow,
      findUserByEmail ((create_booking db r).2.users) r.email = some u ∧
      create_booking db r =
        (.success db.nextBookingId,
         ⟨updateEvents db.events r.event_id r.number_of_tickets,
          (create_booking db r).2.users,
          db.bookings ++
            [⟨db.nextBookingId, r.event_id, u.user_id, r.number_of_tickets⟩],
          (create_booking db r).2.nextUserId,
          db.nextBookingId + 1⟩) := by
  obtain ⟨u, hu⟩ := findUserByEmail_resolve db.users r.email db.nextUserId
    r.first_name r.last_name
  have hcb : create_booking db r =
      (.success db.nextBookingId,
       ⟨updateEvents db.events r.event_id r.number_of_tickets,
        (if (findUserByEmail db.users r.email).isSome then db.users
         else db.users ++ [⟨db.nextUserId, r.email, r.first_name,
           r.last_name, none, true⟩]),
        db.bookings ++
          [⟨db.nextBookingId, r.event_id, u.user_id, r.number_of_tickets⟩],
        (if (findUserByEmail db.users r.email).isSome then db.nextUserId
         else db.nextUserId + 1),
        db.nextBookingId + 1⟩) := by
    simp only [create_booking, hcv, Bool.false_eq_true, if_false, hfind,
      Option.isNone_some, hu]
  refine ⟨u, ?_, ?_⟩ <;> simp [hcb, hu]

theorem findUserByEmail_map_upsert (users : List UserRow)
    (em fn ln pw : String) :
    findUserByEmail (users.map (fun x =>
      if x.email == em
      then ⟨x.user_id, em, fn, ln, some pw, x.active⟩ else x)) em =
    (findUserByEmail users em).map
      (fun x => ⟨x.user_id, em, fn, ln, some pw, x.active⟩) := by
  induction users with
  | nil => rfl
  | cons x t ih =>
    cases hb : (x.email == em) with
    | true =>
      simp only [List.map_cons, findUserByEmail, List.find?_cons]
      rw [hb]
      simp only [if_true]
      have hp : ((⟨x.user_id, em, fn, ln, some pw, x.active⟩ :
          UserRow).email == em) = true := by simp
      rw [hp]
      rfl
    | false =>
      simp only [List.map_cons, findUserByEmail, List.find?_cons]
      rw [hb]
      simp only [Bool.false_eq_true, if_false]
      rw [hb]
      exact ih

theorem ginv_step (nA nB : Int) (s : ConcState) (w : Bool)
    (h : ginv nA nB s = true) : ginv nA nB (step nA nB s w) = true := by
  obtain ⟨av, lk, pcA, pcB⟩ := s
  cases w
  · cases pcB
    · rcases lk with _ | b
      · by_cases hc : av - nB < 0
        · simp only [step, if_pos hc]
          simp only [ginv, holdingOK] at h ⊢
          exact h
        · simp only [step, if_neg hc]
          cases pcA
          · simp [ginv, holdingOK] at h ⊢
            omega
          · simp [ginv, holdingOK] at h
          · simp [ginv, holdingOK] at h ⊢
            omega
          · simp [ginv, holdingOK] at h ⊢
            omega
      · simp only [step]
        exact h
    · simp only [step]
      cases pcA
      · simp [ginv, holdingOK] at h ⊢
        omega
      · simp [ginv, holdingOK] at h
        obtain ⟨⟨h0, hpa, hL1⟩, hpb, hL2⟩ := h
        rw [hL1] at hL2
        exact absurd hL2 (by simp)
      · simp [ginv, holdingOK] at h ⊢
        omega
      · simp [ginv, holdingOK] at h ⊢
        omega
    · simp only [step]
      exact h
    · simp only [step]
      exact h
  · cases pcA
    · rcases lk with _ | b
      · by_cases hc : av - nA < 0
        · simp only [step, if_pos hc]
          simp only [ginv, holdingOK] at h ⊢
          exact h
        · simp only [step, if_neg hc]
          cases pcB
          · simp [ginv, holdingOK] at h ⊢
            omega
          · simp [ginv, holdingOK] at h
          · simp [ginv, holdingOK] at h ⊢
            omega
          · simp [ginv, holdingOK] at h ⊢
            omega
      · simp only [step]
        exact h
    · simp only [step]
      cases pcB
      · simp [ginv, holdingOK] at h ⊢
        omega
      · simp [ginv, holdingOK] at h
        obtain ⟨⟨h0, hpa, hL1⟩, hpb, hL2⟩ := h
        rw [hL1] at hL2
        exact absurd hL2 (by simp)
      · simp [ginv, holdingOK] at h ⊢
        omega
      · simp [ginv, holdingOK] at h ⊢
        omega
    · simp only [step]
      exact h
    · simp only [step]
      exact h

theorem ginv_run (nA nB : Int) (sched : List Bool) (s : ConcState)
    (h : ginv nA nB s = true) : ginv nA nB (run nA nB s sched) = true := by
  induction sched generalizing s with
  | nil => exact h
  | cons w ws ih => exact ih _ (ginv_step nA nB s w h)

theorem ginv_init (nA nB a0 : Int) (h : 0 ≤ a0) :
    ginv nA nB (init a0) = true := by
  simp [ginv, holdingOK, init, h]

theorem step_reachable55 :
    ∀ s ∈ reachable55, ∀ w : Bool, step 5 5 s w ∈ reachable55 := by decide

theorem run_reachable55 (sched : List Bool) :
    ∀ s ∈ reachable55, run 5 5 s sched ∈ reachable55 := by
  induction sched with
  | nil => exact fun s hs => hs
  | cons w ws ih => exact fun s hs => ih _ (step_reachable55 s hs w)

theorem reachable55_outcome :
    ∀ s ∈ reachable55,
      (finished s.pcA = true → finished s.pcB = true →
        (s.pcA = TxnPc.committed ∧ s.pcB = TxnPc.aborted) ∨
        (s.pcA = TxnPc.aborted ∧ s.pcB = TxnPc.committed)) ∧
      0 ≤ s.avail := by decide

/- ===================== Claim theorems ===================== -/

/-- C1: two create_booking calls racing for the same event with
available_tickets = 5, each requesting 5 tickets: under every interleaving
in which both calls finish, exactly one commits and the other aborts with
the insufficient-inventory failure, and available_tickets is never
negative. In general (second conjunct), for any two racing bookings and
any non-negative starting inventory, every reachable state satisfies the
invariant ginv: available_tickets stays non-negative, and a transaction
only ever reaches its commit point holding the row lock with a pending
value equal to the currently committed available_tickets minus its own
request — so no booking commits more tickets than the available_tickets
observed at commit time. -/
theorem racing_bookings_no_oversell (sched : List Bool) :
    ((finished (run 5 5 (init 5) sched).pcA = true →
      finished (run 5 5 (init 5) sched).pcB = true →
        ((run 5 5 (init 5) sched).pcA = TxnPc.committed ∧
         (run 5 5 (init 5) sched).pcB = TxnPc.aborted) ∨
        ((run 5 5 (init 5) sched).pcA = TxnPc.aborted ∧
         (run 5 5 (init 5) sched).pcB = TxnPc.committed)) ∧
      0 ≤ (run 5 5 (init 5) sched).avail) ∧
    (∀ nA nB a0 : Int, 0 ≤ a0 →
      ginv nA nB (run nA nB (init a0) sched) = true) := by
  refine ⟨?_,
    fun nA nB a0 h0 => ginv_run nA nB sched (init a0) (ginv_init nA nB a0 h0)⟩
  exact reachable55_outcome _ (run_reachable55 sched (init 5) (by decide))

/-- C1 witness: the schedule A-update, A-commit, B-update ends with A
committed and B aborted, and the general invariant holds on a concrete
asymmetric instance. -/
theorem racing_bookings_no_oversell_witness :
    ((run 5 5 (init 5) [true, true, false]).pcA = TxnPc.committed ∧
     (run 5 5 (init 5) [true, true, false]).pcB = TxnPc.aborted) ∧
    ginv 2 3 (run 2 3 (init 4) [true, true, false]) = true :=
  ⟨Or.resolve_right
    ((racing_bookings_no_oversell [true, true, false]).1.1
      (by decide) (by decide))
    (by decide),
   (racing_bookings_no_oversell [true, true, false]).2 2 3 4 (by decide)⟩

/-- C2: a booking request for more tickets than the event has available
fails with the insufficient-inventory outcome and leaves the whole store
state unchanged — available_tickets keeps its value, no user row and no
booking row is created (the transaction rolls back). -/
theorem booking_insufficient (db : DBState) (r : CreateBooking) (e : EventRow)
    (hid : 0 < r.event_id)
    (hmail : is_email r.email = true)
    (hfind : findEvent db.events r.event_id = some e)
    (hnn : 0 ≤ e.available_tickets)
    (hlt : e.available_tickets < r.number_of_tickets) :
    post_booking db r = (.insufficientInventory, db, 1) := by
  have hn : 0 < r.number_of_tickets := by omega
  have hmem : e ∈ db.events :=
    @List.mem_of_find?_eq_some EventRow (fun x => x.event_id == r.event_id) e
      db.events hfind
  have hpred : (e.event_id == r.event_id) = true :=
    @List.find?_some EventRow (fun x => x.event_id == r.event_id) e
      db.events hfind
  have hcv : checkViolated
      (updateEvents db.events r.event_id r.number_of_tickets) = true := by
    simp only [checkViolated, List.any_eq_true]
    refine ⟨⟨e.event_id, e.total_tickets,
      e.available_tickets - r.number_of_tickets⟩, ?_, ?_⟩
    · exact List.mem_map.mpr ⟨e, hmem, by simp [hpred]⟩
    · simp
      omega
  simp only [post_booking, validate_ok db r e hid hfind hmail hn]
  simp only [create_booking, hcv, if_true]

/-- C2 witness: requesting 11 of 10 available tickets is rejected with the
store unchanged. -/
theorem booking_insufficient_witness :
    post_booking sampleDB reqTooMany =
      (Outcome.insufficientInventory, sampleDB, 1) :=
  booking_insufficient sampleDB reqTooMany sampleEvent (by decide) (by decide)
    (by decide) (by decide) (by decide)

/-- C3: starting from any store satisfying the conservation invariant, any
sequence of POST /booking requests preserves it at every intermediate
state (any prefix of the sequence is itself an instance): for every events
row, the tickets booked for it plus its available_tickets equal its
total_tickets, and available_tickets is never negative. -/
theorem booking_sequences_conserve_tickets (db : DBState)
    (rs : List CreateBooking) (h : Inv db) : Inv (applyBookings db rs) := by
  induction rs generalizing db with
  | nil => exact h
  | cons r rs ih => exact ih _ (inv_post_booking db r h)

/-- C3 witness: two successful bookings against the sample store keep the
invariant. -/
theorem booking_sequences_conserve_tickets_witness :
    Inv (applyBookings sampleDB [reqOk, reqOk]) :=
  booking_sequences_conserve_tickets sampleDB [reqOk, reqOk] (by decide)

/-- C4: a valid booking request (existing event, positive ticket count,
sufficient inventory) succeeds with the freshly assigned booking id, reads
the store once during validation, decrements exactly the requested event
by exactly the requested count, advances the booking id generator, and
appends exactly one booking row referencing that event and the user
resolved by email — all in the single returned state, i.e. committed
together. -/
theorem booking_success_effects (db : DBState) (r : CreateBooking)
    (e : EventRow)
    (hid : 0 < r.event_id)
    (hmail : is_email r.email = true)
    (hfind : findEvent db.events r.event_id = some e)
    (hn : 0 < r.number_of_tickets)
    (hen : r.number_of_tickets ≤ e.available_tickets)
    (huniq : ∀ x ∈ db.events, x.event_id = r.event_id → x = e)
    (hnn : ∀ x ∈ db.events, 0 ≤ x.available_tickets) :
    (post_booking db r).1 = Outcome.success db.nextBookingId ∧
    (post_booking db r).2.2 = 1 ∧
    (post_booking db r).2.1.events =
      updateEvents db.events r.event_id r.number_of_tickets ∧
    findEvent (post_booking db r).2.1.events r.event_id =
      some ⟨e.event_id, e.total_tickets,
        e.available_tickets - r.number_of_tickets⟩ ∧
    (post_booking db r).2.1.nextBookingId = db.nextBookingId + 1 ∧
    ∃ u : UserRow,
      findUserByEmail (post_booking db r).2.1.users r.email = some u ∧
      (post_booking db r).2.1.bookings =
        db.bookings ++
          [⟨db.nextBookingId, r.event_id, u.user_id, r.number_of_tickets⟩] := by
  have hcv := checkViolated_of_bounds db r e hen huniq hnn
  obtain ⟨u, hu, hcb⟩ := create_booking_success db r e hfind hcv
  have hpb : post_booking db r =
      (.success db.nextBookingId, (create_booking db r).2, 1) := by
    simp only [post_booking, validate_ok db r e hid hfind hmail hn]
    rw [hcb]
  refine ⟨?_, ?_, ?_, ?_, ?_, u, ?_, ?_⟩
  · rw [hpb]
  · rw [hpb]
  · rw [hpb]
    rw [hcb]
  · rw [hpb]
    rw [hcb]
    simp [findEvent_updateEvents, hfind]
  · rw [hpb]
    rw [hcb]
  · rw [hpb]
    exact hu
  · rw [hpb]
    rw [hcb]

/-- C4 witness: booking 3 of 10 tickets on the sample store succeeds with
booking id 1 and advances the booking id generator. -/
theorem booking_success_effects_witness :
    (post_booking sampleDB reqOk).1 = Outcome.success sampleDB.nextBookingId ∧
    (post_booking sampleDB reqOk).2.1.nextBookingId =
      sampleDB.nextBookingId + 1 :=
  ⟨(booking_success_effects sampleDB reqOk sampleEvent (by decide) (by decide)
      (by decide) (by decide) (by decide) (by decide) (by decide)).1,
   (booking_success_effects sampleDB reqOk sampleEvent (by decide) (by decide)
      (by decide) (by decide) (by decide) (by decide) (by decide)).2.2.2.2.1⟩

/-- C5 counterexample: a request for 0 tickets against an existing event is
rejected with the validation failure, yet one store read happened during
validation (the event_id validator calls get_event_by_id before the
number_of_tickets validator result is reported) — refuting the claim that
no store read or write occurs for such a request. -/
theorem nonpositive_tickets_store_read :
    (post_booking sampleDB reqZero).1 = Outcome.invalidRequest ∧
    (post_booking sampleDB reqZero).2.2 = 1 := by decide

/-- C5 amended: a booking request with number_of_tickets at most 0 is
rejected during input validation with the validation failure — provided
its event_id does not itself make validation fail first with
EventNotFound — and the store state is unchanged (no write and no
transaction of the booking engine), though validation may perform up to
one store read. -/
theorem nonpositive_tickets_rejected (db : DBState) (r : CreateBooking)
    (hn : r.number_of_tickets ≤ 0)
    (hev : r.event_id ≤ 0 ∨ (findEvent db.events r.event_id).isSome = true) :
    (post_booking db r).1 = Outcome.invalidRequest ∧
    (post_booking db r).2.1 = db ∧
    (post_booking db r).2.2 ≤ 1 := by
  by_cases hid : r.event_id ≤ 0
  · have hv : validateCreateBooking db r = (.validationError, 0) := by
      simp [validateCreateBooking, hid]
    simp [post_booking, hv]
  · have hs : (findEvent db.events r.event_id).isSome = true := by
      rcases hev with h | h
      · omega
      · exact h
    obtain ⟨e, he⟩ := Option.isSome_iff_exists.mp hs
    have hv : validateCreateBooking db r = (.validationError, 1) := by
      simp only [validateCreateBooking]
      rw [if_neg hid, he]
      by_cases hm : is_email r.email = false
      · rw [if_pos hm]
      · rw [if_neg hm, if_pos hn]
    simp [post_booking, hv]

/-- C5 witness: the zero-ticket request on the sample store is rejected as
invalid with the store unchanged. -/
theorem nonpositive_tickets_rejected_witness :
    (post_booking sampleDB reqZero).1 = Outcome.invalidRequest ∧
    (post_booking sampleDB reqZero).2.1 = sampleDB ∧
    (post_booking sampleDB reqZero).2.2 ≤ 1 :=
  nonpositive_tickets_rejected sampleDB reqZero (by decide)
    (Or.inr (by decide))

/-- C6: a booking request whose positive event_id (the inbound contract of
spec section 6 requires event_id strictly positive) references no existing
event fails with the EventNotFound failure raised by the event_id
validator, and the store state is unchanged: no user row and no booking
row is created. -/
theorem booking_event_absent (db : DBState) (r : CreateBooking)
    (hid : 0 < r.event_id)
    (hfind : findEvent db.events r.event_id = none) :
    post_booking db r = (.eventNotFound, db, 1) := by
  simp only [post_booking, validateCreateBooking]
  rw [if_neg (by omega), hfind]

/-- C6 witness: booking event 99, which does not exist in the sample store,
fails with EventNotFound and changes nothing. -/
theorem booking_event_absent_witness :
    post_booking sampleDB reqNoEvent = (Outcome.eventNotFound, sampleDB, 1) :=
  booking_event_absent sampleDB reqNoEvent (by decide) (by decide)

/-- C7: when the email of a booking request already identifies a user row,
create_booking succeeds leaving the users relation entirely unchanged (the
ON CONFLICT DO NOTHING upsert does not touch the stored first_name,
last_name or password) and the inserted booking references the
pre-existing user_id resolved by email. -/
theorem booking_keeps_existing_user (db : DBState) (r : CreateBooking)
    (e : EventRow) (u : UserRow)
    (hfind : findEvent db.events r.event_id = some e)
    (hcv : checkViolated
      (updateEvents db.events r.event_id r.number_of_tickets) = false)
    (hu : findUserByEmail db.users r.email = some u) :
    (create_booking db r).1 = BookingOutcome.success db.nextBookingId ∧
    (create_booking db r).2.users = db.users ∧
    (create_booking db r).2.bookings =
      db.bookings ++
        [⟨db.nextBookingId, r.event_id, u.user_id, r.number_of_tickets⟩] := by
  simp only [create_booking, hcv, Bool.false_eq_true, if_false, hu,
    Option.isSome_some, if_true, hfind, Option.isNone_some]
  exact ⟨trivial, trivial, trivial⟩

/-- C7 witness: booking with the registered email of sampleUser keeps the
users relation unchanged and references user_id 7. -/
theorem booking_keeps_existing_user_witness :
    (create_booking sampleDBUser reqOk).1 =
      BookingOutcome.success sampleDBUser.nextBookingId ∧
    (create_booking sampleDBUser reqOk).2.users = sampleDBUser.users :=
  ⟨(booking_keeps_existing_user sampleDBUser reqOk sampleEvent sampleUser
      (by decide) (by decide) (by decide)).1,
   (booking_keeps_existing_user sampleDBUser reqOk sampleEvent sampleUser
      (by decide) (by decide) (by decide)).2.1⟩

/-- C8: a connection borrowed from the pool by the DatabaseConnection
context manager is returned by putconn exactly once and the pool is
restored, whether the body completes normally or raises (the body outcome
is universally quantified). -/
theorem connection_returned_once (p : PoolState) (body : BodyOutcome)
    (h : 0 < p.available) :
    (withDatabaseConnection p body).putconnCalls = 1 ∧
    (withDatabaseConnection p body).pool = p := by
  obtain ⟨av, iu⟩ := p
  cases av with
  | zero => simp at h
  | succ a => simp [withDatabaseConnection]

/-- C8 witness: a raising body against a one-connection pool still returns
the connection exactly once. -/
theorem connection_returned_once_witness :
    (withDatabaseConnection ⟨1, 0⟩ BodyOutcome.raises).putconnCalls = 1 ∧
    (withDatabaseConnection ⟨1, 0⟩ BodyOutcome.raises).pool = ⟨1, 0⟩ :=
  connection_returned_once ⟨1, 0⟩ BodyOutcome.raises (by decide)

/-- C9: registering with an email that already identifies a user row does
not fail: create_user returns the existing user_id and overwrites the
stored first_name, last_name and password hash with the newly supplied
values, while every user row with a different email is kept. -/
theorem registration_overwrites_existing_user (hashFn : String → String)
    (db : DBState) (nu : CreateUser) (u : UserRow)
    (hu : findUserByEmail db.users nu.email = some u) :
    (create_user hashFn db nu).1 = u.user_id ∧
    findUserByEmail (create_user hashFn db nu).2.users nu.email =
      some ⟨u.user_id, nu.email, nu.first_name, nu.last_name,
        some (hashFn nu.password), u.active⟩ ∧
    ∀ x ∈ db.users, x.email ≠ nu.email →
      x ∈ (create_user hashFn db nu).2.users := by
  refine ⟨?_, ?_, ?_⟩
  · simp [create_user, hu]
  · simp only [create_user, hu]
    rw [findUserByEmail_map_upsert, hu]
    rfl
  · intro x hx hne
    simp only [create_user, hu]
    have hb : (x.email == nu.email) = false := by simp [hne]
    exact List.mem_map.mpr ⟨x, hx, by simp [hb]⟩

/-- C9 witness: re-registering the email of sampleUser returns user_id 7
and replaces the stored name and password hash. -/
theorem registration_overwrites_existing_user_witness :
    (create_user (fun s => s) sampleDBUser sampleCreateUser).1 =
      sampleUser.user_id ∧
    findUserByEmail (create_user (fun s => s) sampleDBUser
        sampleCreateUser).2.users sampleCreateUser.email =
      some ⟨7, "ann@lee.com", "New", "Person", some "newpass1", true⟩ :=
  ⟨(registration_overwrites_existing_user (fun s => s) sampleDBUser
      sampleCreateUser sampleUser (by decide)).1,
   (registration_overwrites_existing_user (fun s => s) sampleDBUser
      sampleCreateUser sampleUser (by decide)).2.1⟩

/-- C10: verification of a token produced by create_access_token accepts it
with the embedded user_id at every verification time, whatever the expiry
minutes and the strftime rendering were — the expire value is written
under a custom key that jwt.decode never validates, so the result is
independent of the expiry data and of the time at which verification
runs (two arbitrary instances agree). -/
theorem token_verification_ignores_expiry (f1 f2 : Int → String)
    (m1 m2 : Int) (key alg : String) (uid : Int) (t1 t2 now1 now2 : Int) :
    verify_user (create_access_token f1 m1 key alg uid t1) key alg now1 =
      VerifyResult.ok uid ∧
    verify_user (create_access_token f1 m1 key alg uid t1) key alg now1 =
      verify_user (create_access_token f2 m2 key alg uid t2) key alg now2 := by
  constructor <;>
    simp [verify_user, jwt_decode, create_access_token, jwt_encode]

end BookingApp
